import Mathlib

/-!
Shallow embedding of the `neuron` crate (`src/lib.rs`).

The Rust struct `Neuron` stores six `usize` coordinates, two `u32`
classification codes, twelve `f64` scalar fields and two
`HashSet<(usize, usize, usize)>` connection sets.  We model `usize`/`u32`
values as `ℕ`, the `f64` scalars as exact rationals `ℚ` (real-valued
semantics of the floating point program; no rounding), and the hash sets
as `Finset (ℕ × ℕ × ℕ)`.  Every method of the Rust `impl Neuron` block
that the claims touch is translated below; methods that mutate `self` (or
a pair of neurons) become functions returning the updated record(s).
The IEEE special values produced by `fire`'s division by a zero firing
rate are modelled separately by the type `F` and the function `fireIEEE`.
-/

structure Neuron where
  x : ℕ
  y : ℕ
  z : ℕ
  ax : ℕ
  ay : ℕ
  az : ℕ
  nt : ℕ
  nrt : ℕ
  ap : ℚ
  tp : ℚ
  mp : ℚ
  fr : ℚ
  sw : ℚ
  sst : ℚ
  pr : ℚ
  arp : ℚ
  rrp : ℚ
  ac : Finset (ℕ × ℕ × ℕ)
  dc : Finset (ℕ × ℕ × ℕ)
  nc : ℚ
  ltp : ℚ
  ltd : ℚ
  deriving DecidableEq

namespace Neuron

/-- Rust `f64::clamp` on non-NaN finite values: `self.max(min).min(max)`. -/
def clamp (v lo hi : ℚ) : ℚ := min (max v lo) hi

def BASE_ABSOLUTE_REFRACTORY_PERIOD : ℚ := 1
def ABSOLUTE_REFRACTORY_PERIOD_DECREASE_FACTOR : ℚ := 0.99
def BASE_RELATIVE_REFRACTORY_PERIOD : ℚ := 1
def RELATIVE_REFRACTORY_PERIOD_RECOVERY_FACTOR : ℚ := 0.165
def RESTING_POTENTIAL : ℚ := -70
def ACCUMULATED_POTENTIAL_CRITICAL_VALUE : ℚ := 10
def ACCUMULATED_POTENTIAL_STIMULUS_INTENSITY : ℚ := 0.8
def ACCUMULATED_POTENTIAL_SLIGHT_INTENSITY : ℚ := 0.08
def MAX_THRESHOLD_POTENTIAL : ℚ := -50
def MIN_THRESHOLD_POTENTIAL : ℚ := -55
def THRESHOLD_POTENTIAL_BOOST_FACTOR_FOR_ACCUMULATED_POTENTIAL : ℚ := 0.01
def THRESHOLD_POTENTIAL_BOOST_FACTOR_FOR_FIRING_RATE : ℚ := 0.02
def MIN_MEMBRANE_POTENTIAL : ℚ := -90
def MAX_MEMBRANE_POTENTIAL : ℚ := -20
def MIN_EXCITATORY_SIGNAL : ℚ := 1
def MAX_EXCITATORY_SIGNAL : ℚ := 30
def MIN_INHIBITORY_SIGNAL : ℚ := -20
def MAX_INHIBITORY_SIGNAL : ℚ := -1
def MAX_FIRING_RATE : ℚ := 1
def FIRING_RATE_DECREASE_FACTOR : ℚ := 0.92
def FIRING_RATE_BOOST_FACTOR : ℚ := 0.01
def MAX_PLASTICITY_RATE : ℚ := 1
def PLASTICITY_RATE_DECREASE_FACTOR : ℚ := 0.96
def PLASTICITY_RATE_BOOST_FACTOR : ℚ := 0.01
def MAX_LTP : ℚ := 1
def LTP_BOOST_FACTOR : ℚ := 0.01
def LTP_DECREASE_FACTOR : ℚ := 0.96
def MIN_LTD : ℚ := -1
def LTD_BOOST_FACTOR : ℚ := 0.01
def LTD_DECREASE_FACTOR : ℚ := 0.96
def SYNAPTIC_STRENGTH_THRESHOLD_BOOST_FACTOR : ℚ := 0.01

/-- `Neuron::new`.  The Rust constructor panics (`InvalidArgument`) when
`nt > 2` or `nrt > 1`; a panic is modelled as `none`. -/
def new (x y z ax ay az : ℕ) (nt nrt : ℕ) : Option Neuron :=
  if 2 < nt then none
  else if 1 < nrt then none
  else some
    { x := x, y := y, z := z, ax := ax, ay := ay, az := az
      nt := nt, nrt := nrt
      ap := 0
      tp := MIN_THRESHOLD_POTENTIAL
      mp := RESTING_POTENTIAL
      fr := 0
      sw := 1
      sst := 0
      pr := 1
      arp := 0
      rrp := BASE_RELATIVE_REFRACTORY_PERIOD
      ac := ∅
      dc := ∅
      nc := 1
      ltp := 0
      ltd := 0 }

/-- `Neuron::establish_axonal_connection`: mutates both neurons, returned
as a pair `(self, neuron)`. -/
def establish_axonal_connection (a b : Neuron) : Neuron × Neuron :=
  ({ a with ac := insert (b.x, b.y, b.z) a.ac },
   { b with dc := insert (a.x, a.y, a.z) b.dc })

/-- `Neuron::establish_dendritic_connection`. -/
def establish_dendritic_connection (a b : Neuron) : Neuron × Neuron :=
  ({ a with dc := insert (b.x, b.y, b.z) a.dc },
   { b with ac := insert (a.x, a.y, a.z) b.ac })

/-- `Neuron::terminate_axonal_connection`. -/
def terminate_axonal_connection (a b : Neuron) : Neuron × Neuron :=
  ({ a with ac := a.ac.erase (b.x, b.y, b.z) },
   { b with dc := b.dc.erase (a.x, a.y, a.z) })

/-- `Neuron::terminate_dendritic_connection`. -/
def terminate_dendritic_connection (a b : Neuron) : Neuron × Neuron :=
  ({ a with dc := a.dc.erase (b.x, b.y, b.z) },
   { b with ac := b.ac.erase (a.x, a.y, a.z) })

/-- `Neuron::prune_axonal_connection`. -/
def prune_axonal_connection (a b : Neuron) : Neuron × Neuron :=
  if a.sw ≤ a.sst ∧ a.sw < b.sw then terminate_axonal_connection a b
  else if b.sw ≤ a.sw then establish_axonal_connection a b
  else (a, b)

/-- `Neuron::prune_dendritic_connection`. -/
def prune_dendritic_connection (a b : Neuron) : Neuron × Neuron :=
  if a.sw ≤ a.sst ∧ b.sw < a.sw then terminate_dendritic_connection a b
  else if a.sw ≤ b.sw then establish_dendritic_connection a b
  else (a, b)

/-- `Neuron::fire` in exact rational arithmetic (`ℚ` division by zero is
the junk value `0`; the IEEE behaviour at `fr = 0` is treated by
`fireIEEE` below).  Returns the emitted signal and the updated neuron. -/
def fire (n : Neuron) : ℚ × Neuron :=
  let output : ℚ :=
    if n.nrt = 1 then
      clamp (n.ap * (FIRING_RATE_BOOST_FACTOR / n.fr))
        MIN_EXCITATORY_SIGNAL MAX_EXCITATORY_SIGNAL
    else if n.nrt = 0 then
      clamp (-n.ap * (FIRING_RATE_BOOST_FACTOR / n.fr))
        MIN_INHIBITORY_SIGNAL MAX_INHIBITORY_SIGNAL
    else 0
  (output, { n with ap := 0 })

/-- `Neuron::detect`: fire when `mp >= tp`, otherwise emit `0.0` and leave
the state untouched. -/
def detect (n : Neuron) : ℚ × Neuron :=
  if n.tp ≤ n.mp then fire n else (0, n)

/-- The `arp` value written by `detection_arp` when the gate is taken:
the old `arp` decayed by `ABSOLUTE_REFRACTORY_PERIOD_DECREASE_FACTOR * fr`
and clamped to `[0, BASE_ABSOLUTE_REFRACTORY_PERIOD]`. -/
def arpDecayed (n : Neuron) : ℚ :=
  clamp (n.arp - ABSOLUTE_REFRACTORY_PERIOD_DECREASE_FACTOR * n.fr)
    0 BASE_ABSOLUTE_REFRACTORY_PERIOD

/-- `Neuron::detection_arp`: when `arp > 0`, decay it by
`ABSOLUTE_REFRACTORY_PERIOD_DECREASE_FACTOR * fr`, clamp to
`[0, BASE_ABSOLUTE_REFRACTORY_PERIOD]` and report `true`. -/
def detection_arp (n : Neuron) : Bool × Neuron :=
  if 0 < n.arp then (true, { n with arp := arpDecayed n })
  else (false, n)

/-- `Neuron::update_ap`. -/
def update_ap (input : ℚ) (n : Neuron) : Neuron :=
  let d : ℚ :=
    if ACCUMULATED_POTENTIAL_CRITICAL_VALUE ≤ |input| then
      ACCUMULATED_POTENTIAL_STIMULUS_INTENSITY * input * n.nc * n.rrp
    else
      ACCUMULATED_POTENTIAL_SLIGHT_INTENSITY * input * n.nc * n.rrp
  { n with ap := n.ap + d }

/-- `Neuron::update_mp`. -/
def update_mp (n : Neuron) : Neuron :=
  let m : ℚ := clamp (RESTING_POTENTIAL + n.ap)
    MIN_MEMBRANE_POTENTIAL MAX_MEMBRANE_POTENTIAL
  { n with mp := m }

/-- `Neuron::update_tp`: rebuild `tp` from `MIN_THRESHOLD_POTENTIAL`,
boost by `0.01*ap` when `ap > 0` and by `0.02*fr` always, then cap at
`MAX_THRESHOLD_POTENTIAL`. -/
def update_tp (n : Neuron) : Neuron :=
  let apBoost : ℚ :=
    if 0 < n.ap then
      THRESHOLD_POTENTIAL_BOOST_FACTOR_FOR_ACCUMULATED_POTENTIAL * n.ap
    else 0
  let t : ℚ :=
    min (MIN_THRESHOLD_POTENTIAL + apBoost +
      THRESHOLD_POTENTIAL_BOOST_FACTOR_FOR_FIRING_RATE * n.fr)
    MAX_THRESHOLD_POTENTIAL
  { n with tp := t }

/-- `Neuron::update_rp`: recover `rrp` toward its base when below it, then
reset `arp := 1, rrp := 0` when the neuron is about to fire. -/
def update_rp (n : Neuron) : Neuron :=
  let rrpRec : ℚ :=
    if n.rrp < BASE_RELATIVE_REFRACTORY_PERIOD then
      min (n.rrp + RELATIVE_REFRACTORY_PERIOD_RECOVERY_FACTOR * n.fr)
        BASE_RELATIVE_REFRACTORY_PERIOD
    else n.rrp
  let arpNew : ℚ := if n.tp ≤ n.mp then BASE_ABSOLUTE_REFRACTORY_PERIOD else n.arp
  let rrpNew : ℚ := if n.tp ≤ n.mp then 0 else rrpRec
  { n with arp := arpNew, rrp := rrpNew }

/-- `Neuron::update_fr`. -/
def update_fr (n : Neuron) : Neuron :=
  let f : ℚ :=
    if n.tp ≤ n.mp then
      n.fr + FIRING_RATE_BOOST_FACTOR *
        (n.ap / ACCUMULATED_POTENTIAL_CRITICAL_VALUE)
    else n.fr * FIRING_RATE_DECREASE_FACTOR
  { n with fr := min f MAX_FIRING_RATE }

/-- `Neuron::update_pr`. -/
def update_pr (n : Neuron) : Neuron :=
  let p : ℚ :=
    if n.tp ≤ n.mp then
      n.pr + PLASTICITY_RATE_BOOST_FACTOR * n.fr
    else n.pr * PLASTICITY_RATE_DECREASE_FACTOR
  { n with pr := min p MAX_PLASTICITY_RATE }

/-- `Neuron::update_ltp`. -/
def update_ltp (input : ℚ) (n : Neuron) : Neuron :=
  let v : ℚ :=
    if 0 < input then
      n.ltp + LTP_BOOST_FACTOR *
        (input / ACCUMULATED_POTENTIAL_CRITICAL_VALUE)
    else n.ltp * LTP_DECREASE_FACTOR
  { n with ltp := min v MAX_LTP }

/-- `Neuron::update_ltd`. -/
def update_ltd (input : ℚ) (n : Neuron) : Neuron :=
  let v : ℚ :=
    if input < 0 then
      n.ltd + LTD_BOOST_FACTOR *
        (input / ACCUMULATED_POTENTIAL_CRITICAL_VALUE)
    else n.ltd * LTD_DECREASE_FACTOR
  { n with ltd := max v MIN_LTD }

/-- `Neuron::update_sst`. -/
def update_sst (input : ℚ) (n : Neuron) : Neuron :=
  let v : ℚ :=
    clamp (n.sst - SYNAPTIC_STRENGTH_THRESHOLD_BOOST_FACTOR *
      (input / ACCUMULATED_POTENTIAL_CRITICAL_VALUE))
    MIN_LTD MAX_LTP
  { n with sst := v }

/-- `Neuron::update_sw`. -/
def update_sw (n : Neuron) : Neuron :=
  { n with sw := clamp (n.sw + (n.ltp + n.ltd) * n.pr) MIN_LTD MAX_LTP }

/-- Steps 3-12 of `Neuron::transmit`: the per-signal update pipeline run
when the refractory gate lets the input through. -/
def pipeline (input : ℚ) (n : Neuron) : Neuron :=
  update_sw (update_sst input (update_ltd input (update_ltp input
    (update_pr (update_fr (update_rp (update_tp (update_mp
      (update_ap input n)))))))))

/-- `Neuron::transmit`'s effect on `self`.  The optional signal delay
(`calculate_distance` + `signal_delay`) reads but never writes neuron
state, so the state transformer is the refractory gate followed by the
pipeline. -/
def transmit (input : ℚ) (n : Neuron) : Neuron :=
  if 0 < n.arp then (detection_arp n).2 else pipeline input n

/-- Rust `usize` subtraction `a - b` with release-profile two's-complement
wrapping semantics, modulo `2^64` (in a debug build the same underflow
panics instead). -/
def usizeSub (a b : ℕ) : ℕ := (a + 2 ^ 64 - b % 2 ^ 64) % 2 ^ 64

/-- Rust `usize::pow(_, 2)` with release-profile wrapping semantics. -/
def usizeSq (a : ℕ) : ℕ := a ^ 2 % 2 ^ 64

/-- The integer radicand `xd + yd + zd` computed by
`Neuron::calculate_distance` before the `f64` cast and `sqrt`, under
wrapping `usize` arithmetic.  `calculate_distance` itself returns
`sqrt` of this value, so it returns the Euclidean distance exactly when
this radicand equals the true squared distance. -/
def calculate_distance_radicand (a b : Neuron) : ℕ :=
  (usizeSq (usizeSub a.x b.x) + usizeSq (usizeSub a.y b.y) +
    usizeSq (usizeSub a.z b.z)) % 2 ^ 64

/-- The mathematically intended squared Euclidean distance between the
two soma coordinates, with signed differences. -/
def trueSquaredDistance (a b : Neuron) : ℤ :=
  ((a.x : ℤ) - b.x) ^ 2 + ((a.y : ℤ) - b.y) ^ 2 + ((a.z : ℤ) - b.z) ^ 2

end Neuron

/-- IEEE-754 double values as needed by `Neuron::fire`: a finite value
(exact, no rounding), the two infinities, and NaN.  Signed zero is not
distinguished: the firing rate reaching `0.0` in this program is the
positive zero. -/
inductive F where
  | fin (q : ℚ)
  | pinf
  | ninf
  | nan
  deriving DecidableEq

namespace F

/-- IEEE multiplication on the fragment used by `fire`. -/
def mul : F → F → F
  | fin a, fin b => fin (a * b)
  | fin a, pinf => if 0 < a then pinf else if a < 0 then ninf else nan
  | fin a, ninf => if 0 < a then ninf else if a < 0 then pinf else nan
  | pinf, fin b => if 0 < b then pinf else if b < 0 then ninf else nan
  | ninf, fin b => if 0 < b then ninf else if b < 0 then pinf else nan
  | pinf, pinf => pinf
  | pinf, ninf => ninf
  | ninf, pinf => ninf
  | ninf, ninf => pinf
  | nan, _ => nan
  | _, nan => nan

/-- IEEE division on the fragment used by `fire`: a nonzero finite value
divided by (positive) zero is a signed infinity. -/
def div : F → F → F
  | fin a, fin b =>
    if b = 0 then (if 0 < a then pinf else if a < 0 then ninf else nan)
    else fin (a / b)
  | fin _, pinf => fin 0
  | fin _, ninf => fin 0
  | pinf, fin b => if 0 ≤ b then pinf else ninf
  | ninf, fin b => if 0 ≤ b then ninf else pinf
  | pinf, pinf => nan
  | pinf, ninf => nan
  | ninf, pinf => nan
  | ninf, ninf => nan
  | nan, _ => nan
  | _, nan => nan

/-- Rust `f64::clamp` with finite rational bounds `lo ≤ hi`: `NaN` input
stays `NaN`, infinities land on the corresponding bound. -/
def clampF (x : F) (lo hi : ℚ) : F :=
  match x with
  | fin q => fin (min (max q lo) hi)
  | pinf => fin hi
  | ninf => fin lo
  | nan => nan

end F

namespace Neuron

/-- `Neuron::fire` with IEEE special-value semantics for the division
`FIRING_RATE_BOOST_FACTOR / fr`; the state fields themselves are finite.
Used to settle the `fr == 0` division-by-zero behaviour. -/
def fireIEEE (n : Neuron) : F × Neuron :=
  let r := F.div (F.fin FIRING_RATE_BOOST_FACTOR) (F.fin n.fr)
  let output : F :=
    if n.nrt = 1 then
      F.clampF (F.mul (F.fin n.ap) r) MIN_EXCITATORY_SIGNAL MAX_EXCITATORY_SIGNAL
    else if n.nrt = 0 then
      F.clampF (F.mul (F.fin (-n.ap)) r) MIN_INHIBITORY_SIGNAL MAX_INHIBITORY_SIGNAL
    else F.fin 0
  (output, { n with ap := 0 })

/-- The clamp invariants of spec §3: bounds on `tp, mp, fr, pr, arp, rrp,
sst, sw, ltp, ltd`. -/
def Inv (n : Neuron) : Prop :=
  (-55 ≤ n.tp ∧ n.tp ≤ -50) ∧ (-90 ≤ n.mp ∧ n.mp ≤ -20) ∧
  (0 ≤ n.fr ∧ n.fr ≤ 1) ∧ n.pr ≤ 1 ∧ (0 ≤ n.arp ∧ n.arp ≤ 1) ∧
  (0 ≤ n.rrp ∧ n.rrp ≤ 1) ∧ (-1 ≤ n.sst ∧ n.sst ≤ 1) ∧
  (-1 ≤ n.sw ∧ n.sw ≤ 1) ∧ (0 ≤ n.ltp ∧ n.ltp ≤ 1) ∧
  (-1 ≤ n.ltd ∧ n.ltd ≤ 0)

/-- Strengthening of `Inv` that holds from `update_mp` on inside one
`transmit` pipeline run: `mp` is the clamped resting-plus-accumulated
potential of the current `ap`. -/
def Mid (n : Neuron) : Prop :=
  Inv n ∧
  n.mp = clamp (RESTING_POTENTIAL + n.ap) MIN_MEMBRANE_POTENTIAL MAX_MEMBRANE_POTENTIAL

end Neuron

/-- The neuron produced by `Neuron::new(0,0,0,0,0,0,0,1)`: a concrete
freshly constructed excitatory neuron used by the closed instances. -/
def fresh0 : Neuron :=
  { x := 0, y := 0, z := 0, ax := 0, ay := 0, az := 0, nt := 0, nrt := 1
    ap := 0, tp := -55, mp := -70, fr := 0, sw := 1, sst := 0, pr := 1
    arp := 0, rrp := 1, ac := ∅, dc := ∅, nc := 1, ltp := 0, ltd := 0 }

/-- A refractory neuron with zero firing rate: `fresh0` with `arp` set to
`1/2` (all fields are public in the Rust struct, so this state is
directly constructible). -/
def refractoryZeroFr : Neuron := { fresh0 with arp := 1/2 }

/-- A firing-eligible excitatory neuron with nonzero firing rate. -/
def fireEligible : Neuron := { fresh0 with mp := -50, fr := 1/2, ap := 100 }

/-- Soma at the origin, for the distance counterexample. -/
def somaOrigin : Neuron := fresh0

/-- Soma at `x = 2^63`: the `usize` subtraction `self.x - other.x` in
`calculate_distance` underflows against this neuron. -/
def somaFar : Neuron := { fresh0 with x := 2 ^ 63 }

section Theorems

open Neuron

theorem clamp_le_hi (v lo hi : ℚ) : Neuron.clamp v lo hi ≤ hi :=
  min_le_right _ _

theorem lo_le_clamp (v lo hi : ℚ) (h : lo ≤ hi) : lo ≤ Neuron.clamp v lo hi :=
  le_min (le_max_right v lo) h

/-- C9: for every neuron state with `mp < tp`, `detect()` returns exactly
`0.0` and mutates no state at all: the returned neuron is the input one,
every field included. -/
theorem detect_quiescent (n : Neuron) (h : n.mp < n.tp) :
    Neuron.detect n = (0, n) := by
  unfold Neuron.detect
  rw [if_neg (not_le.mpr h)]

theorem detect_quiescent_witness :
    fresh0.mp < fresh0.tp ∧ Neuron.detect fresh0 = (0, fresh0) :=
  ⟨by norm_num [fresh0], detect_quiescent fresh0 (by norm_num [fresh0])⟩

/-- C8: on a firing-eligible neuron (`mp ≥ tp`) with non-zero firing
rate, `detect()` emits a signal in `[1, 30]` when `nrt = 1` (excitatory)
and in `[-20, -1]` when `nrt = 0` (inhibitory), for any accumulated
potential, and resets `ap` to exactly `0`. -/
theorem detect_fire_bounds (n : Neuron) (hfe : n.tp ≤ n.mp) (hfr : n.fr ≠ 0) :
    (n.nrt = 1 →
      MIN_EXCITATORY_SIGNAL ≤ (Neuron.detect n).1 ∧
      (Neuron.detect n).1 ≤ MAX_EXCITATORY_SIGNAL) ∧
    (n.nrt = 0 →
      MIN_INHIBITORY_SIGNAL ≤ (Neuron.detect n).1 ∧
      (Neuron.detect n).1 ≤ MAX_INHIBITORY_SIGNAL) ∧
    (Neuron.detect n).2.ap = 0 := by
  unfold Neuron.detect Neuron.fire
  rw [if_pos hfe]
  refine ⟨?_, ?_, rfl⟩
  · intro h1
    rw [if_pos h1]
    exact ⟨lo_le_clamp _ _ _ (by norm_num [MIN_EXCITATORY_SIGNAL, MAX_EXCITATORY_SIGNAL]),
      clamp_le_hi _ _ _⟩
  · intro h0
    have h1 : ¬ n.nrt = 1 := by omega
    rw [if_neg h1, if_pos h0]
    exact ⟨lo_le_clamp _ _ _ (by norm_num [MIN_INHIBITORY_SIGNAL, MAX_INHIBITORY_SIGNAL]),
      clamp_le_hi _ _ _⟩

theorem detect_fire_bounds_witness :
    MIN_EXCITATORY_SIGNAL ≤ (Neuron.detect fireEligible).1 ∧
    (Neuron.detect fireEligible).1 ≤ MAX_EXCITATORY_SIGNAL ∧
    (Neuron.detect fireEligible).2.ap = 0 :=
  have h := detect_fire_bounds fireEligible
    (by norm_num [fireEligible, fresh0]) (by norm_num [fireEligible, fresh0])
  ⟨(h.1 rfl).1, (h.1 rfl).2, h.2.2⟩

/-- C5: `new` fails (returns `none`, modelling the `InvalidArgument`
panic) precisely when `nt > 2` or `nrt > 1`; on every valid code pair it
returns the exact default record of spec §3 with empty connection sets. -/
theorem new_characterization (x y z ax ay az nt nrt : ℕ) :
    (Neuron.new x y z ax ay az nt nrt = none ↔ 2 < nt ∨ 1 < nrt) ∧
    (nt ≤ 2 → nrt ≤ 1 →
      Neuron.new x y z ax ay az nt nrt = some
        { x := x, y := y, z := z, ax := ax, ay := ay, az := az
          nt := nt, nrt := nrt
          ap := 0, tp := -55, mp := -70, fr := 0, sw := 1, sst := 0
          pr := 1, arp := 0, rrp := 1, ac := ∅, dc := ∅, nc := 1
          ltp := 0, ltd := 0 }) := by
  constructor
  · unfold Neuron.new
    split_ifs with h1 h2 <;> simp <;> omega
  · intro h1 h2
    unfold Neuron.new
    rw [if_neg (by omega), if_neg (by omega)]
    rfl

theorem new_characterization_witness :
    Neuron.new 1 2 3 4 5 6 2 1 = some
      { x := 1, y := 2, z := 3, ax := 4, ay := 5, az := 6
        nt := 2, nrt := 1
        ap := 0, tp := -55, mp := -70, fr := 0, sw := 1, sst := 0
        pr := 1, arp := 0, rrp := 1, ac := ∅, dc := ∅, nc := 1
        ltp := 0, ltd := 0 } :=
  (new_characterization 1 2 3 4 5 6 2 1).2 (by norm_num) (by norm_num)

/-- C7: on any pair of distinct neurons, establishing the same axonal
connection twice leaves both neurons exactly as a single call does. -/
theorem establish_axonal_idempotent (a b : Neuron) (hab : a ≠ b) :
    Neuron.establish_axonal_connection
        (Neuron.establish_axonal_connection a b).1
        (Neuron.establish_axonal_connection a b).2 =
      Neuron.establish_axonal_connection a b := by
  unfold Neuron.establish_axonal_connection
  simp [Finset.insert_idem]

theorem establish_axonal_idempotent_witness :
    Neuron.establish_axonal_connection
        (Neuron.establish_axonal_connection fresh0 somaFar).1
        (Neuron.establish_axonal_connection fresh0 somaFar).2 =
      Neuron.establish_axonal_connection fresh0 somaFar :=
  establish_axonal_idempotent fresh0 somaFar
    (by simp [fresh0, somaFar])

/-- C6: `A.establish_axonal_connection(B)` inserts B's soma coordinate
into A's axonal set and A's soma coordinate into B's dendritic set and
changes no other field of either neuron; `terminate_axonal_connection`
removes exactly those two entries and changes nothing else, is a no-op
when the edge is absent, and exactly reverses a fresh establishment. -/
theorem establish_terminate_axonal (a b : Neuron) (hab : a ≠ b) :
    ((Neuron.establish_axonal_connection a b).1 =
        { a with ac := insert (b.x, b.y, b.z) a.ac } ∧
      (b.x, b.y, b.z) ∈ (Neuron.establish_axonal_connection a b).1.ac ∧
      (Neuron.establish_axonal_connection a b).2 =
        { b with dc := insert (a.x, a.y, a.z) b.dc } ∧
      (a.x, a.y, a.z) ∈ (Neuron.establish_axonal_connection a b).2.dc) ∧
    ((Neuron.terminate_axonal_connection a b).1 =
        { a with ac := a.ac.erase (b.x, b.y, b.z) } ∧
      (Neuron.terminate_axonal_connection a b).2 =
        { b with dc := b.dc.erase (a.x, a.y, a.z) }) ∧
    ((b.x, b.y, b.z) ∉ a.ac → (Neuron.terminate_axonal_connection a b).1 = a) ∧
    ((a.x, a.y, a.z) ∉ b.dc → (Neuron.terminate_axonal_connection a b).2 = b) ∧
    ((b.x, b.y, b.z) ∉ a.ac → (a.x, a.y, a.z) ∉ b.dc →
      Neuron.terminate_axonal_connection
        (Neuron.establish_axonal_connection a b).1
        (Neuron.establish_axonal_connection a b).2 = (a, b)) := by
  refine ⟨⟨rfl, Finset.mem_insert_self _ _, rfl, Finset.mem_insert_self _ _⟩,
    ⟨rfl, rfl⟩, ?_, ?_, ?_⟩
  · intro h
    show ({ a with ac := a.ac.erase (b.x, b.y, b.z) } : Neuron) = a
    rw [Finset.erase_eq_of_not_mem h]
  · intro h
    show ({ b with dc := b.dc.erase (a.x, a.y, a.z) } : Neuron) = b
    rw [Finset.erase_eq_of_not_mem h]
  · intro h1 h2
    show (({ a with ac := (insert (b.x, b.y, b.z) a.ac).erase (b.x, b.y, b.z) },
      { b with dc := (insert (a.x, a.y, a.z) b.dc).erase (a.x, a.y, a.z) })
        : Neuron × Neuron) = (a, b)
    rw [Finset.erase_insert h1, Finset.erase_insert h2]

theorem establish_terminate_axonal_witness :
    Neuron.terminate_axonal_connection
      (Neuron.establish_axonal_connection fresh0 somaFar).1
      (Neuron.establish_axonal_connection fresh0 somaFar).2 =
      (fresh0, somaFar) :=
  (establish_terminate_axonal fresh0 somaFar
      (by simp [fresh0, somaFar])).2.2.2.2
    (by simp [fresh0]) (by simp [somaFar, fresh0])

/-- C4: `prune_axonal_connection(other)` terminates the axonal edge when
`self.sw ≤ self.sst` and `self.sw < other.sw`, otherwise establishes it
when `self.sw ≥ other.sw`, otherwise changes nothing; ties establish;
`prune_dendritic_connection` is the role-swapped mirror on the dendritic
edge. -/
theorem prune_connection_cases (a b : Neuron) (hab : a ≠ b) :
    (a.sw ≤ a.sst ∧ a.sw < b.sw →
      Neuron.prune_axonal_connection a b =
        Neuron.terminate_axonal_connection a b) ∧
    (¬(a.sw ≤ a.sst ∧ a.sw < b.sw) → b.sw ≤ a.sw →
      Neuron.prune_axonal_connection a b =
        Neuron.establish_axonal_connection a b) ∧
    (¬(a.sw ≤ a.sst ∧ a.sw < b.sw) → ¬(b.sw ≤ a.sw) →
      Neuron.prune_axonal_connection a b = (a, b)) ∧
    (a.sw = b.sw →
      Neuron.prune_axonal_connection a b =
        Neuron.establish_axonal_connection a b) ∧
    (a.sw ≤ a.sst ∧ b.sw < a.sw →
      Neuron.prune_dendritic_connection a b =
        Neuron.terminate_dendritic_connection a b) ∧
    (¬(a.sw ≤ a.sst ∧ b.sw < a.sw) → a.sw ≤ b.sw →
      Neuron.prune_dendritic_connection a b =
        Neuron.establish_dendritic_connection a b) ∧
    (¬(a.sw ≤ a.sst ∧ b.sw < a.sw) → ¬(a.sw ≤ b.sw) →
      Neuron.prune_dendritic_connection a b = (a, b)) ∧
    (a.sw = b.sw →
      Neuron.prune_dendritic_connection a b =
        Neuron.establish_dendritic_connection a b) := by
  refine ⟨?_, ?_, ?_, ?_, ?_, ?_, ?_, ?_⟩
  · intro h
    rw [Neuron.prune_axonal_connection, if_pos h]
  · intro h1 h2
    rw [Neuron.prune_axonal_connection, if_neg h1, if_pos h2]
  · intro h1 h2
    rw [Neuron.prune_axonal_connection, if_neg h1, if_neg h2]
  · intro h
    have h1 : ¬(a.sw ≤ a.sst ∧ a.sw < b.sw) := by
      rintro ⟨-, h2⟩
      rw [h] at h2
      exact lt_irrefl _ h2
    rw [Neuron.prune_axonal_connection, if_neg h1, if_pos (le_of_eq h.symm)]
  · intro h
    rw [Neuron.prune_dendritic_connection, if_pos h]
  · intro h1 h2
    rw [Neuron.prune_dendritic_connection, if_neg h1, if_pos h2]
  · intro h1 h2
    rw [Neuron.prune_dendritic_connection, if_neg h1, if_neg h2]
  · intro h
    have h1 : ¬(a.sw ≤ a.sst ∧ b.sw < a.sw) := by
      rintro ⟨-, h2⟩
      rw [h] at h2
      exact lt_irrefl _ h2
    rw [Neuron.prune_dendritic_connection, if_neg h1, if_pos (le_of_eq h)]

theorem prune_connection_cases_witness :
    Neuron.prune_axonal_connection
        { fresh0 with sw := 1/20, sst := 1/20 }
        { fresh0 with x := 9, sw := 1/10 } =
      Neuron.terminate_axonal_connection
        { fresh0 with sw := 1/20, sst := 1/20 }
        { fresh0 with x := 9, sw := 1/10 } :=
  (prune_connection_cases
      { fresh0 with sw := 1/20, sst := 1/20 }
      { fresh0 with x := 9, sw := 1/10 }
      (by simp [fresh0])).1
    ⟨by norm_num, by norm_num⟩

/-- C1 (counterexample): a neuron state with `arp = 1/2 > 0` and firing
rate `fr = 0` (all `Neuron` fields are public in the Rust crate, so this
state is directly constructible); `transmit` decays `arp` by
`0.99 * fr = 0`, so `arp` is NOT strictly decreased. -/
theorem transmit_refractory_cex :
    0 < refractoryZeroFr.arp ∧
    ¬ (Neuron.transmit 0 refractoryZeroFr).arp < refractoryZeroFr.arp := by
  have harp : (Neuron.transmit 0 refractoryZeroFr).arp = 1/2 := by
    norm_num [Neuron.transmit, Neuron.detection_arp, Neuron.arpDecayed,
      Neuron.clamp, Neuron.ABSOLUTE_REFRACTORY_PERIOD_DECREASE_FACTOR,
      Neuron.BASE_ABSOLUTE_REFRACTORY_PERIOD, refractoryZeroFr, fresh0]
  constructor
  · norm_num [refractoryZeroFr, fresh0]
  · rw [harp]
    norm_num [refractoryZeroFr, fresh0]

/-- C1 (amended): for every neuron state with `arp > 0` AND `fr > 0`, a
`transmit` call strictly decreases `arp` (decaying it by
`ABSOLUTE_REFRACTORY_PERIOD_DECREASE_FACTOR * fr`, clamped to `[0, 1]`)
and leaves every other field unchanged: steps 3-12 of the pipeline are
not applied. -/
theorem transmit_refractory_decay (n : Neuron) (input : ℚ)
    (h0 : 0 < n.arp) (hfr : 0 < n.fr) :
    Neuron.transmit input n = { n with arp := Neuron.arpDecayed n } ∧
    Neuron.arpDecayed n =
      Neuron.clamp (n.arp - Neuron.ABSOLUTE_REFRACTORY_PERIOD_DECREASE_FACTOR * n.fr)
        0 Neuron.BASE_ABSOLUTE_REFRACTORY_PERIOD ∧
    (Neuron.transmit input n).arp < n.arp := by
  have he : Neuron.transmit input n = { n with arp := Neuron.arpDecayed n } := by
    unfold Neuron.transmit Neuron.detection_arp
    rw [if_pos h0, if_pos h0]
  refine ⟨he, rfl, ?_⟩
  rw [he]
  show Neuron.arpDecayed n < n.arp
  unfold Neuron.arpDecayed Neuron.clamp
    Neuron.ABSOLUTE_REFRACTORY_PERIOD_DECREASE_FACTOR
    Neuron.BASE_ABSOLUTE_REFRACTORY_PERIOD
  rcases le_or_lt n.arp 1 with hle | hlt
  · calc min (max (n.arp - 0.99 * n.fr) 0) 1
        ≤ max (n.arp - 0.99 * n.fr) 0 := min_le_left _ _
      _ < n.arp := max_lt (by linarith) h0
  · calc min (max (n.arp - 0.99 * n.fr) 0) 1 ≤ 1 := min_le_right _ _
      _ < n.arp := hlt

theorem transmit_refractory_decay_witness :
    (Neuron.transmit 7 { fresh0 with arp := 1, fr := 1/2 }).arp <
      ({ fresh0 with arp := 1, fr := 1/2 } : Neuron).arp :=
  (transmit_refractory_decay { fresh0 with arp := 1, fr := 1/2 } 7
    (by norm_num [fresh0]) (by norm_num [fresh0])).2.2

/-- C2 (code bug): `calculate_distance` subtracts `usize` coordinates, so
with the source soma at `x = 2^63` and self at the origin the radicand it
feeds to `sqrt` is `0` under release-profile wrapping (a debug build
panics on the underflow instead), while the true squared Euclidean
distance is `2^126`: the returned value is not the Euclidean distance
when a source coordinate exceeds self's. -/
theorem calculate_distance_underflow :
    Neuron.calculate_distance_radicand somaOrigin somaFar = 0 ∧
    Neuron.trueSquaredDistance somaOrigin somaFar = 2 ^ 126 ∧
    (Neuron.calculate_distance_radicand somaOrigin somaFar : ℤ) ≠
      Neuron.trueSquaredDistance somaOrigin somaFar := by
  refine ⟨?_, ?_, ?_⟩ <;>
    norm_num [Neuron.calculate_distance_radicand, Neuron.trueSquaredDistance,
      Neuron.usizeSub, Neuron.usizeSq, somaOrigin, somaFar, fresh0]

theorem inv_update_ap (input : ℚ) (n : Neuron) (h : Neuron.Inv n) :
    Neuron.Inv (Neuron.update_ap input n) := h

theorem mid_update_mp (n : Neuron) (h : Neuron.Inv n) :
    Neuron.Mid (Neuron.update_mp n) := by
  obtain ⟨hA, hB, hrest⟩ := h
  refine ⟨⟨hA, ⟨?_, ?_⟩, hrest⟩, ?_⟩
  · exact lo_le_clamp _ _ _
      (by norm_num [Neuron.MIN_MEMBRANE_POTENTIAL, Neuron.MAX_MEMBRANE_POTENTIAL])
  · exact clamp_le_hi _ _ _
  · rfl

theorem mid_update_tp (n : Neuron) (h : Neuron.Mid n) :
    Neuron.Mid (Neuron.update_tp n) := by
  obtain ⟨⟨hA, hB, ⟨hC1, hC2⟩, hrest⟩, heq⟩ := h
  unfold Neuron.update_tp
  dsimp only
  refine ⟨⟨⟨?_, ?_⟩, hB, ⟨hC1, hC2⟩, hrest⟩, heq⟩
  · refine le_min ?_
      (by norm_num [Neuron.MIN_THRESHOLD_POTENTIAL, Neuron.MAX_THRESHOLD_POTENTIAL])
    have hboost : (0:ℚ) ≤
        (if 0 < n.ap then
          Neuron.THRESHOLD_POTENTIAL_BOOST_FACTOR_FOR_ACCUMULATED_POTENTIAL * n.ap
        else 0) := by
      split_ifs with hap
      · exact mul_nonneg
          (by norm_num [Neuron.THRESHOLD_POTENTIAL_BOOST_FACTOR_FOR_ACCUMULATED_POTENTIAL])
          hap.le
      · exact le_refl 0
    have hfrb : (0:ℚ) ≤ Neuron.THRESHOLD_POTENTIAL_BOOST_FACTOR_FOR_FIRING_RATE * n.fr :=
      mul_nonneg (by norm_num [Neuron.THRESHOLD_POTENTIAL_BOOST_FACTOR_FOR_FIRING_RATE]) hC1
    have hm : Neuron.MIN_THRESHOLD_POTENTIAL = (-55:ℚ) := rfl
    linarith
  · exact min_le_right _ _

theorem mid_ap_lower (n : Neuron) (h : Neuron.Mid n) (hge : n.tp ≤ n.mp) :
    (15:ℚ) ≤ n.ap := by
  obtain ⟨⟨⟨htp1, htp2⟩, hrest⟩, heq⟩ := h
  rw [heq] at hge
  unfold Neuron.clamp Neuron.RESTING_POTENTIAL Neuron.MIN_MEMBRANE_POTENTIAL
    Neuron.MAX_MEMBRANE_POTENTIAL at hge
  have h1 : (-55:ℚ) ≤ min (max (-70 + n.ap) (-90)) (-20) := le_trans htp1 hge
  have h2 : (-55:ℚ) ≤ max (-70 + n.ap) (-90) := le_trans h1 (min_le_left _ _)
  rcases le_max_iff.mp h2 with h3 | h3
  · linarith
  · norm_num at h3

theorem mid_update_rp (n : Neuron) (h : Neuron.Mid n) :
    Neuron.Mid (Neuron.update_rp n) := by
  obtain ⟨⟨hA, hB, ⟨hC1, hC2⟩, hD, ⟨hE1, hE2⟩, ⟨hF1, hF2⟩, hrest⟩, heq⟩ := h
  unfold Neuron.update_rp
  dsimp only
  refine ⟨⟨hA, hB, ⟨hC1, hC2⟩, hD, ⟨?_, ?_⟩, ⟨?_, ?_⟩, hrest⟩, heq⟩
  · dsimp only
    split_ifs with hc
    · norm_num [Neuron.BASE_ABSOLUTE_REFRACTORY_PERIOD]
    · exact hE1
  · dsimp only
    split_ifs with hc
    · norm_num [Neuron.BASE_ABSOLUTE_REFRACTORY_PERIOD]
    · exact hE2
  · dsimp only
    split_ifs with hc hr
    · exact le_refl 0
    · refine le_min ?_ (by norm_num [Neuron.BASE_RELATIVE_REFRACTORY_PERIOD])
      exact add_nonneg hF1 (mul_nonneg
        (by norm_num [Neuron.RELATIVE_REFRACTORY_PERIOD_RECOVERY_FACTOR]) hC1)
    · exact hF1
  · dsimp only
    split_ifs with hc hr
    · norm_num
    · exact min_le_right _ _
    · exact hF2

theorem mid_update_fr (n : Neuron) (h : Neuron.Mid n) :
    Neuron.Mid (Neuron.update_fr n) := by
  have hap15 := mid_ap_lower n h
  obtain ⟨⟨hA, hB, ⟨hC1, hC2⟩, hrest⟩, heq⟩ := h
  unfold Neuron.update_fr
  dsimp only
  refine ⟨⟨hA, hB, ⟨?_, ?_⟩, hrest⟩, heq⟩
  · refine le_min ?_ (by norm_num [Neuron.MAX_FIRING_RATE])
    split_ifs with hc
    · have h15 := hap15 hc
      unfold Neuron.FIRING_RATE_BOOST_FACTOR
        Neuron.ACCUMULATED_POTENTIAL_CRITICAL_VALUE
      linarith
    · exact mul_nonneg hC1 (by norm_num [Neuron.FIRING_RATE_DECREASE_FACTOR])
  · exact min_le_right _ _

theorem mid_update_pr (n : Neuron) (h : Neuron.Mid n) :
    Neuron.Mid (Neuron.update_pr n) := by
  obtain ⟨⟨hA, hB, hC, hD, hrest⟩, heq⟩ := h
  refine ⟨⟨hA, hB, hC, ?_, hrest⟩, heq⟩
  exact min_le_right _ _

theorem mid_update_ltp (input : ℚ) (n : Neuron) (h : Neuron.Mid n) :
    Neuron.Mid (Neuron.update_ltp input n) := by
  obtain ⟨⟨hA, hB, hC, hD, hE, hF, hG, hH, ⟨hI1, hI2⟩, hJ⟩, heq⟩ := h
  unfold Neuron.update_ltp
  dsimp only
  refine ⟨⟨hA, hB, hC, hD, hE, hF, hG, hH, ⟨?_, ?_⟩, hJ⟩, heq⟩
  · refine le_min ?_ (by norm_num [Neuron.MAX_LTP])
    split_ifs with hc
    · unfold Neuron.LTP_BOOST_FACTOR Neuron.ACCUMULATED_POTENTIAL_CRITICAL_VALUE
      linarith
    · exact mul_nonneg hI1 (by norm_num [Neuron.LTP_DECREASE_FACTOR])
  · exact min_le_right _ _

theorem mid_update_ltd (input : ℚ) (n : Neuron) (h : Neuron.Mid n) :
    Neuron.Mid (Neuron.update_ltd input n) := by
  obtain ⟨⟨hA, hB, hC, hD, hE, hF, hG, hH, hI, ⟨hJ1, hJ2⟩⟩, heq⟩ := h
  unfold Neuron.update_ltd
  dsimp only
  refine ⟨⟨hA, hB, hC, hD, hE, hF, hG, hH, hI, ⟨?_, ?_⟩⟩, heq⟩
  · exact le_max_right _ _
  · refine max_le ?_ (by norm_num [Neuron.MIN_LTD])
    split_ifs with hc
    · unfold Neuron.LTD_BOOST_FACTOR Neuron.ACCUMULATED_POTENTIAL_CRITICAL_VALUE
      linarith
    · unfold Neuron.LTD_DECREASE_FACTOR
      linarith

theorem mid_update_sst (input : ℚ) (n : Neuron) (h : Neuron.Mid n) :
    Neuron.Mid (Neuron.update_sst input n) := by
  obtain ⟨⟨hA, hB, hC, hD, hE, hF, hG, hrest⟩, heq⟩ := h
  refine ⟨⟨hA, hB, hC, hD, hE, hF, ⟨?_, ?_⟩, hrest⟩, heq⟩
  · exact lo_le_clamp _ _ _ (by norm_num [Neuron.MIN_LTD, Neuron.MAX_LTP])
  · exact clamp_le_hi _ _ _

theorem mid_update_sw (n : Neuron) (h : Neuron.Mid n) :
    Neuron.Mid (Neuron.update_sw n) := by
  obtain ⟨⟨hA, hB, hC, hD, hE, hF, hG, hH, hrest⟩, heq⟩ := h
  refine ⟨⟨hA, hB, hC, hD, hE, hF, hG, ⟨?_, ?_⟩, hrest⟩, heq⟩
  · exact lo_le_clamp _ _ _ (by norm_num [Neuron.MIN_LTD, Neuron.MAX_LTP])
  · exact clamp_le_hi _ _ _

theorem inv_pipeline (input : ℚ) (n : Neuron) (h : Neuron.Inv n) :
    Neuron.Inv (Neuron.pipeline input n) :=
  (mid_update_sw _ (mid_update_sst input _ (mid_update_ltd input _
    (mid_update_ltp input _ (mid_update_pr _ (mid_update_fr _
      (mid_update_rp _ (mid_update_tp _ (mid_update_mp _
        (inv_update_ap input n h)))))))))).1

theorem inv_transmit (input : ℚ) (n : Neuron) (h : Neuron.Inv n) :
    Neuron.Inv (Neuron.transmit input n) := by
  unfold Neuron.transmit
  split_ifs with hg
  · unfold Neuron.detection_arp
    rw [if_pos hg]
    obtain ⟨hA, hB, hC, hD, hE, hrest⟩ := h
    refine ⟨hA, hB, hC, hD, ⟨?_, ?_⟩, hrest⟩
    · exact lo_le_clamp _ _ _
        (by norm_num [Neuron.BASE_ABSOLUTE_REFRACTORY_PERIOD])
    · exact clamp_le_hi _ _ _
  · exact inv_pipeline input n h

theorem inv_of_new (x y z ax ay az nt nrt : ℕ) (n : Neuron)
    (h : Neuron.new x y z ax ay az nt nrt = some n) : Neuron.Inv n := by
  unfold Neuron.new at h
  split_ifs at h
  simp only [Option.some.injEq] at h
  subst h
  unfold Neuron.Inv
  norm_num [Neuron.MIN_THRESHOLD_POTENTIAL, Neuron.RESTING_POTENTIAL,
    Neuron.BASE_RELATIVE_REFRACTORY_PERIOD]

theorem inv_foldl (inputs : List ℚ) (n : Neuron) (h : Neuron.Inv n) :
    Neuron.Inv (inputs.foldl (fun s i => Neuron.transmit i s) n) := by
  induction inputs generalizing n with
  | nil => exact h
  | cons a l ih => exact ih (Neuron.transmit a n) (inv_transmit a n h)

/-- C3: starting from any freshly constructed neuron and applying any
finite sequence of rational inputs through `transmit`, the clamp
invariants of spec §3 hold after every call: `tp ∈ [-55, -50]`,
`mp ∈ [-90, -20]`, `fr ∈ [0, 1]`, `pr ≤ 1`, `arp ∈ [0, 1]`,
`rrp ∈ [0, 1]`, `sst ∈ [-1, 1]`, `sw ∈ [-1, 1]`, `ltp ∈ [0, 1]`,
`ltd ∈ [-1, 0]` (every prefix of a sequence is itself a sequence, so
this covers the state after each intermediate call as well). -/
theorem transmit_sequence_invariants (x y z ax ay az nt nrt : ℕ) (n0 : Neuron)
    (h : Neuron.new x y z ax ay az nt nrt = some n0) (inputs : List ℚ) :
    Neuron.Inv (inputs.foldl (fun s i => Neuron.transmit i s) n0) :=
  inv_foldl inputs n0 (inv_of_new x y z ax ay az nt nrt n0 h)

theorem transmit_sequence_invariants_witness :
    Neuron.Inv ([20, -100].foldl (fun s i => Neuron.transmit i s) fresh0) :=
  transmit_sequence_invariants 0 0 0 0 0 0 0 1 fresh0 rfl [20, -100]

theorem div_boost_by_zero : F.div (F.fin Neuron.FIRING_RATE_BOOST_FACTOR) (F.fin 0) = F.pinf := by
  have h : (0:ℚ) < Neuron.FIRING_RATE_BOOST_FACTOR := by
    norm_num [Neuron.FIRING_RATE_BOOST_FACTOR]
  simp [F.div, h]

/-- C10: when `fire()` runs with `fr == 0`, the division
`FIRING_RATE_BOOST_FACTOR / fr` is a division by zero, but with `ap > 0`
the infinite intermediate is absorbed by the clamp: an excitatory neuron
(`nrt = 1`) returns exactly `30.0` and an inhibitory one (`nrt = 0`)
exactly `-20.0`; only with `ap == 0` is the result NaN (`0 * Infinity`),
and in all cases `ap` is still reset to `0.0`. -/
theorem fire_zero_fr (n : Neuron) (hfr : n.fr = 0) :
    (0 < n.ap →
      (n.nrt = 1 → (Neuron.fireIEEE n).1 = F.fin 30) ∧
      (n.nrt = 0 → (Neuron.fireIEEE n).1 = F.fin (-20))) ∧
    (n.ap = 0 → n.nrt ≤ 1 → (Neuron.fireIEEE n).1 = F.nan) ∧
    (Neuron.fireIEEE n).2.ap = 0 := by
  refine ⟨?_, ?_, rfl⟩
  · intro hap
    constructor
    · intro h1
      show (if n.nrt = 1 then _ else _) = F.fin 30
      rw [if_pos h1, hfr, div_boost_by_zero]
      show F.clampF (F.mul (F.fin n.ap) F.pinf) Neuron.MIN_EXCITATORY_SIGNAL
        Neuron.MAX_EXCITATORY_SIGNAL = F.fin 30
      rw [show F.mul (F.fin n.ap) F.pinf = F.pinf by simp [F.mul, hap]]
      rfl
    · intro h0
      have h1 : ¬ n.nrt = 1 := by omega
      show (if n.nrt = 1 then _ else _) = F.fin (-20)
      rw [if_neg h1, if_pos h0, hfr, div_boost_by_zero]
      show F.clampF (F.mul (F.fin (-n.ap)) F.pinf) Neuron.MIN_INHIBITORY_SIGNAL
        Neuron.MAX_INHIBITORY_SIGNAL = F.fin (-20)
      rw [show F.mul (F.fin (-n.ap)) F.pinf = F.ninf by
        simp only [F.mul]
        rw [if_neg (by linarith), if_pos (by linarith)]]
      rfl
  · intro hap hle
    have hmul : ∀ q : ℚ, q = 0 → F.mul (F.fin q) F.pinf = F.nan := by
      intro q hq
      simp [F.mul, hq]
    rcases (by omega : n.nrt = 0 ∨ n.nrt = 1) with h0 | h1
    · have h1 : ¬ n.nrt = 1 := by omega
      show (if n.nrt = 1 then _ else _) = F.nan
      rw [if_neg h1, if_pos h0, hfr, div_boost_by_zero,
        hmul (-n.ap) (by rw [hap]; ring)]
      rfl
    · show (if n.nrt = 1 then _ else _) = F.nan
      rw [if_pos h1, hfr, div_boost_by_zero, hmul n.ap hap]
      rfl

theorem fire_zero_fr_witness :
    (Neuron.fireIEEE { fresh0 with ap := 5 }).1 = F.fin 30 ∧
    (Neuron.fireIEEE { fresh0 with ap := 5 }).2.ap = 0 :=
  have h := fire_zero_fr { fresh0 with ap := 5 } rfl
  ⟨(h.1 (by norm_num [fresh0])).1 rfl, h.2.2⟩

end Theorems
